import Mathlib

/-
Verification of the cart / checkout core of the eccomerce-ssr repository.

Embedded source files:
  * src/services/cart.service.js        (cart aggregate: recalc, add, setQty, remove, clear)
  * src/controllers/order.controller.js (idempotent checkout variant: computeCartHash,
                                         getOrCreateOrderFromCart, getCheckoutSuccess,
                                         getCheckoutPending, getCheckoutFailure)
  * src/models/Order.js                 (order states and the partial unique index on
                                         one `created` order per user)

Modelling conventions: JS numbers are rationals (ℚ); integer cent amounts and
quantities are integers (ℤ); `Math.round` is `jround`; nullable JS values are
`Option`; the Mongo order collection is a list of order records together with a
fresh-id counter.  NaN is not representable in ℚ; the `Number(x) || 0` and
`Number.isFinite` guards of the source are noted where they collapse.
-/

set_option maxRecDepth 10000

namespace Shop

/-- Decidable equality for `Except` results, used to evaluate concrete cart
operations in witnesses and counterexamples. -/
instance {ε α : Type _} [DecidableEq ε] [DecidableEq α] : DecidableEq (Except ε α) := fun x y => by
  cases x <;> cases y
  case error.error a b =>
    exact if h : a = b then isTrue (by rw [h]) else isFalse (by intro hh; injection hh; contradiction)
  case ok.ok a b =>
    exact if h : a = b then isTrue (by rw [h]) else isFalse (by intro hh; injection hh; contradiction)
  case error.ok a b => exact isFalse (by intro hh; exact Except.noConfusion hh)
  case ok.error a b => exact isFalse (by intro hh; exact Except.noConfusion hh)

/-- Model of JS `Math.round` on rationals: round half toward positive infinity. -/
def jround (q : ℚ) : ℤ := ⌊q + 1/2⌋

/-- Model of `toCents` (cart.service.js): `Math.round(Number(value) * 100)`.
The `Number.isNaN` guard of the source maps NaN to 0; NaN has no ℚ counterpart. -/
def toCents (v : ℚ) : ℤ := jround (v * 100)

/-- Model of `fromCents` (cart.service.js): `Math.round(Number(cents)) / 100`;
every call site passes an integer, so the inner round is the identity. -/
def fromCents (c : ℤ) : ℚ := (c : ℚ) / 100

/-- Model of JS `Math.trunc` on rationals: truncation toward zero. -/
def ratTrunc (q : ℚ) : ℤ := if 0 ≤ q then ⌊q⌋ else ⌈q⌉

/-- Model of `Number(x.toFixed(2))` for the nonnegative amounts handled by the
checkout controller: round to cents and scale back. -/
def round2 (q : ℚ) : ℚ := fromCents (toCents q)

/-- A product document as selected by the cart/checkout controllers
(`_id active stock price promoEnabled promoPct title imageUrl`).
`id = none` models a missing/falsy `_id`; `stock = none` and `promoPct = none`
model fields that are absent or not numbers (the source tests them with
`typeof ... === 'number'`). -/
structure Product where
  id : Option String
  title : String
  imageUrl : Option String
  price : ℚ
  stock : Option ℤ
  promoEnabled : Bool
  promoPct : Option ℚ
  active : Bool
deriving Repr, DecidableEq

/-- Result record of `computeUnitPrice` (cart.service.js). -/
structure UnitPrice where
  unitBaseCents : ℤ
  unitFinalCents : ℤ
  unitDiscountCents : ℤ
deriving Repr, DecidableEq

/-- Model of `computeUnitPrice` (cart.service.js): promo applies when
`promoEnabled` is set and `promoPct` is a number greater than 0; the percentage
is clamped to 0..100 and the final price is `Math.round(base * (1 - pct/100))`. -/
def computeUnitPrice (p : Product) : UnitPrice :=
  let unitBaseCents := toCents p.price
  match p.promoPct with
  | some pct =>
    if p.promoEnabled ∧ 0 < pct then
      let pc := min (max pct 0) 100
      let unitFinalCents := jround ((unitBaseCents : ℚ) * (1 - pc / 100))
      { unitBaseCents, unitFinalCents, unitDiscountCents := max (unitBaseCents - unitFinalCents) 0 }
    else
      { unitBaseCents, unitFinalCents := unitBaseCents, unitDiscountCents := 0 }
  | none =>
      { unitBaseCents, unitFinalCents := unitBaseCents, unitDiscountCents := 0 }

/-- A cart line item, with the snapshot fields the session cart stores.
`_adjusted` is the silent-clamp flag set by `recalc`.  The integer cent fields
are always present on items built by this service; the source's fallback branch
for legacy sessions lacking them is therefore vacuous here (see `recalc`). -/
structure CartItem where
  productId : String
  title : String
  imageUrl : Option String
  qty : ℤ
  stock : ℤ
  price : ℚ
  promoPrice : Option ℚ
  unitBaseCents : ℤ
  unitFinalCents : ℤ
  unitDiscountCents : ℤ
  lineSubtotal : ℚ
  _adjusted : Bool
deriving Repr, DecidableEq

/-- The internal cent totals kept under `cart._meta`. -/
structure CartMeta where
  subtotalCents : ℤ
  discountCents : ℤ
  totalCents : ℤ
deriving Repr, DecidableEq

/-- The session cart structure created by `ensureCart` (cart.service.js). -/
structure Cart where
  items : List CartItem
  count : ℤ
  subtotal : ℚ
  discount : ℚ
  total : ℚ
  _meta : CartMeta
deriving Repr, DecidableEq

/-- The empty cart installed by `ensureCart` on first access. -/
def emptyCart : Cart :=
  { items := [], count := 0, subtotal := 0, discount := 0, total := 0,
    _meta := { subtotalCents := 0, discountCents := 0, totalCents := 0 } }

/-- A fresh-products lookup, modelling the `Map` passed as `opts.productsMap`
to `recalc` (`productsMap.get` returning `undefined` is `none`). -/
def PMap : Type := String → Option Product

namespace CartService

/-- Refresh of a line item from a fresh product document, mirroring the
`if (fresh)` block of `recalc` (cart.service.js): update title/image, recompute
unit prices, cap the quantity to the fresh stock and flag `_adjusted` when the
quantity was lowered.  `fresh.title` is always a string on the selected
documents, so `fresh.title ?? it.title` is `fresh.title`. -/
def refreshFromFresh (it : CartItem) (f : Product) : CartItem :=
  let up := computeUnitPrice f
  let stockFresh : ℤ := match f.stock with
    | some s => max s 0
    | none => it.stock
  let clamped := stockFresh < it.qty
  { it with
    title := f.title
    imageUrl := match f.imageUrl with
      | some u => some u
      | none => it.imageUrl
    price := fromCents up.unitBaseCents
    promoPrice := if up.unitFinalCents ≠ up.unitBaseCents then some (fromCents up.unitFinalCents) else none
    unitBaseCents := up.unitBaseCents
    unitFinalCents := up.unitFinalCents
    unitDiscountCents := up.unitDiscountCents
    stock := stockFresh
    qty := if clamped then stockFresh else it.qty
    _adjusted := if clamped then true else it._adjusted }

/-- Final cents of one line: `Math.max(Math.round(it.unitFinalCents * it.qty), 0)`;
the product of two integers needs no rounding. -/
def lineFinalCents (it : CartItem) : ℤ := max (it.unitFinalCents * it.qty) 0

/-- Discount cents of one line: `Math.max(Math.round(it.unitDiscountCents * it.qty), 0)`. -/
def lineDiscountCents (it : CartItem) : ℤ := max (it.unitDiscountCents * it.qty) 0

/-- The final step of the per-item pass of `recalc`:
`it.lineSubtotal = fromCents(lineFinalCents)` on the surviving line. -/
def finishItem (it : CartItem) : CartItem :=
  { it with lineSubtotal := fromCents (lineFinalCents it) }

/-- The per-item body of the `map`/`filter(Boolean)` pass of `recalc`
(cart.service.js): optionally refresh from a fresh product, drop the line when
the governing stock or the quantity is not positive, and recompute
`lineSubtotal`.  The source's re-derivation of missing cent fields
(`typeof it.unitBaseCents !== 'number'`) only fires for legacy sessions that
predate those fields; items of this model always carry them. -/
def processItem (productsMap : Option PMap) (it0 : CartItem) : Option CartItem :=
  let fresh : Option Product := match productsMap with
    | some m => m it0.productId
    | none => none
  let it := match fresh with
    | some f => refreshFromFresh it0 f
    | none => it0
  let stockNow : ℤ := match fresh with
    | some f => match f.stock with
      | some s => max s 0
      | none => 0
    | none => max it.stock 0
  if stockNow ≤ 0 ∨ it.qty ≤ 0 then none
  else some (finishItem it)

/-- Model of `CartService.recalc` (cart.service.js): rebuild the line list via
`processItem`, then recompute `subtotal`/`discount`/`total`/`count` and the
`_meta` cents strictly from the surviving lines.  `total` carries no extras:
`totalCents = Math.max(subtotalCents, 0)`. -/
def recalc (c : Cart) (productsMap : Option PMap) : Cart :=
  let items := c.items.filterMap (processItem productsMap)
  let subtotalCents := (items.map lineFinalCents).sum
  let discountCents := (items.map lineDiscountCents).sum
  let count := (items.map (·.qty)).sum
  let totalCents := max subtotalCents 0
  { items := items
    count := count
    subtotal := fromCents subtotalCents
    discount := fromCents discountCents
    total := fromCents totalCents
    _meta := { subtotalCents, discountCents, totalCents } }

/-- The domain error thrown by the cart service (`CartError` in
cart.service.js), carrying the message and the error code. -/
structure CartError where
  message : String
  code : String
deriving Repr, DecidableEq

/-- Replace the first line matching `pid` by `f` applied to it, mirroring
`findIndex` followed by in-place mutation; `none` when no line matches. -/
def mergeFirst (items : List CartItem) (pid : String) (f : CartItem → CartItem) :
    Option (List CartItem) :=
  match items with
  | [] => none
  | it :: rest =>
    if it.productId = pid then some (f it :: rest)
    else (mergeFirst rest pid f).map (it :: ·)

/-- The in-place merge of `add` on an existing line: sum the quantities
(clamped to the fresh stock) and refresh the price/promo/stock/title/image
snapshot from the product document. -/
def mergeLine (product : Product) (stock addQty : ℤ) (up : UnitPrice) (it : CartItem) : CartItem :=
  { it with
    qty := min (it.qty + addQty) stock
    title := product.title
    imageUrl := match product.imageUrl with
      | some u => some u
      | none => it.imageUrl
    price := fromCents up.unitBaseCents
    promoPrice := if up.unitFinalCents ≠ up.unitBaseCents then some (fromCents up.unitFinalCents) else none
    unitBaseCents := up.unitBaseCents
    unitFinalCents := up.unitFinalCents
    unitDiscountCents := up.unitDiscountCents
    stock := stock }

/-- The fresh line pushed by `add` when no line for the product exists yet. -/
def newLine (pid : String) (product : Product) (stock addQty : ℤ) (up : UnitPrice) : CartItem :=
  { productId := pid
    title := product.title
    imageUrl := product.imageUrl
    qty := min addQty stock
    stock := stock
    price := fromCents up.unitBaseCents
    promoPrice := if up.unitFinalCents ≠ up.unitBaseCents then some (fromCents up.unitFinalCents) else none
    unitBaseCents := up.unitBaseCents
    unitFinalCents := up.unitFinalCents
    unitDiscountCents := up.unitDiscountCents
    lineSubtotal := 0
    _adjusted := false }

/-- Model of `CartService.add` (cart.service.js).  Validation order is the
source's: missing/falsy `_id`, `active === false`, clamped stock `<= 0`, then
truncated quantity `<= 0`.  On success the existing line is merged (quantity
summed, clamped to the fresh stock) or a new line is appended (quantity clamped
to stock), followed by a full `recalc`.  The `Number.isFinite(qty)` fallback
to 1 only concerns NaN/±∞, which ℚ does not contain.  All throws precede any
mutation, so an error leaves the cart unchanged. -/
def add (c : Cart) (product : Product) (qty : ℚ) : Except CartError Cart :=
  match product.id with
  | none => .error ⟨"Producto inválido.", "INVALID_PRODUCT"⟩
  | some pid =>
    if product.active = false then .error ⟨"El producto no está activo.", "NOT_ACTIVE"⟩
    else
      let stock : ℤ := max (product.stock.getD 0) 0
      if stock ≤ 0 then .error ⟨"Sin stock disponible.", "OUT_OF_STOCK"⟩
      else
        let addQty := ratTrunc qty
        if addQty ≤ 0 then .error ⟨"Cantidad inválida.", "INVALID_QTY"⟩
        else
          let up := computeUnitPrice product
          match mergeFirst c.items pid (mergeLine product stock addQty up) with
          | some items1 => .ok (recalc { c with items := items1 } none)
          | none => .ok (recalc { c with items := c.items ++ [newLine pid product stock addQty up] } none)

/-- First-match update with optional deletion, mirroring `findIndex` followed
by `splice`/in-place mutation; `none` when no line matches. -/
def replaceFirst : List CartItem → String → (CartItem → Option CartItem) → Option (List CartItem)
  | [], _, _ => none
  | it :: rest, pid, f =>
    if it.productId = pid then
      some (match f it with
        | some it1 => it1 :: rest
        | none => rest)
    else (replaceFirst rest pid f).map (it :: ·)

/-- The per-line body of `setQty`: remove the line when the truncated quantity
is below 1; otherwise optionally refresh the snapshot from a supplied product
document with numeric stock, and cap the quantity by the freshest stock. -/
def setQtyUpd (product : Option Product) (newQty : ℤ) (it : CartItem) : Option CartItem :=
  if newQty < 1 then none
  else
    let refreshed := match product with
      | some p =>
        match p.stock with
        | some ps =>
          let up := computeUnitPrice p
          some ({ it with
            title := p.title
            imageUrl := match p.imageUrl with
              | some u => some u
              | none => it.imageUrl
            price := fromCents up.unitBaseCents
            promoPrice := if up.unitFinalCents ≠ up.unitBaseCents then some (fromCents up.unitFinalCents) else none
            unitBaseCents := up.unitBaseCents
            unitFinalCents := up.unitFinalCents
            unitDiscountCents := up.unitDiscountCents
            stock := max ps 0 }, max ps 0)
        | none => none
      | none => none
    let (it1, maxStock) := refreshed.getD (it, it.stock)
    some { it1 with qty := min newQty (max maxStock 0) }

/-- Model of `CartService.setQty` (cart.service.js): no-op when the line does
not exist; truncated quantity below 1 removes the line; otherwise the quantity
is capped by the freshest stock (preferring a supplied product document, which
also refreshes the price snapshot).  The `Number.isFinite` throw only concerns
NaN, which ℚ does not contain. -/
def setQty (c : Cart) (productId : String) (qty : ℚ) (product : Option Product) : Cart :=
  let newQty := ratTrunc qty
  match replaceFirst c.items productId (setQtyUpd product newQty) with
  | some items1 => recalc { c with items := items1 } none
  | none => c

/-- Model of `CartService.remove` (cart.service.js): drop every line with the
given product id, then recalc. -/
def remove (c : Cart) (productId : String) : Cart :=
  recalc { c with items := c.items.filter (fun it => it.productId ≠ productId) } none

/-- Model of `CartService.clear` (cart.service.js): empty the lines, then recalc. -/
def clear (c : Cart) : Cart :=
  recalc { c with items := [] } none

end CartService

/-- One entry of the `items` array serialized by `computeCartHash`
(order.controller.js): `{productId: i.productId || null, title, price, qty}`.
`price` is the cart line's `price` field, i.e. the unit BASE price snapshot. -/
structure HashItem where
  productId : Option String
  title : String
  price : ℚ
  qty : ℚ
deriving Repr, DecidableEq

/-- The value serialized and hashed by `computeCartHash`:
`JSON.stringify({payload: {items}, shippingMethod, shippingFee})`. -/
structure HashPayload where
  items : List HashItem
  shippingMethod : String
  shippingFee : ℚ
deriving Repr, DecidableEq

/-- The hash-input projection of one cart line.  A falsy (empty) product id
becomes `null`; `Number(i.price) || 0` and `Number(i.qty) || 0` are the
identity on rational values (they only rewrite NaN to 0). -/
def hashItemOf (i : CartItem) : HashItem :=
  { productId := if i.productId = "" then none else some i.productId
    title := i.title
    price := i.price
    qty := (i.qty : ℚ) }

/-- Model of `computeCartHash` (order.controller.js).  The source SHA-256
hashes the JSON serialization of this payload; `JSON.stringify` is injective
on these structured values and SHA-256 is a fixed function (collision-free as
the usual idealization), so the digest is modelled by the payload itself.
Equal payloads always yield equal digests in the source. -/
def computeCartHash (cart : Cart) (shippingMethod : String) (shippingFee : ℚ) : HashPayload :=
  { items := cart.items.map hashItemOf, shippingMethod, shippingFee }

/-- The order states of `OrderSchema.status` (src/models/Order.js). -/
inductive OrderStatus where
  | created
  | approved
  | pending
  | rejected
  | abandoned
  | expired
deriving Repr, DecidableEq

/-- A frozen order line (`OrderItemSchema`), as built by
`getOrCreateOrderFromCart`: `subtotal = Number((price * qty).toFixed(2))`. -/
structure OrderItem where
  productId : String
  title : String
  price : ℚ
  qty : ℤ
  subtotal : ℚ
deriving Repr, DecidableEq

/-- An order document (src/models/Order.js).  `id` models Mongo's `_id`,
`createdAt` the `timestamps: true` creation stamp; times are in milliseconds. -/
structure Order where
  id : Nat
  userId : String
  items : List OrderItem
  subtotal : ℚ
  discount : ℚ
  total : ℚ
  shippingMethod : String
  shippingFee : ℚ
  shippingAddressId : Option String
  status : OrderStatus
  mpPreferenceId : Option String
  mpPaymentId : Option String
  cartHash : Option HashPayload
  attemptCount : Nat
  lastAttemptAt : Option Nat
  expiresAt : Option Nat
  createdAt : Nat
deriving Repr, DecidableEq

/-- The persistent order collection: the stored documents plus a counter
supplying fresh ids (Mongo `_id`s are unique). -/
structure Store where
  orders : List Order
  nextId : Nat
deriving Repr, DecidableEq

/-- The store with no orders. -/
def emptyStore : Store := { orders := [], nextId := 0 }

/-- The checkout request body fields read by `getOrCreateOrderFromCart`. -/
structure Body where
  shippingMethod : Option String
  addressId : Option String
  shippingAddressId : Option String
deriving Repr, DecidableEq

/-- `body?.shippingMethod === 'delivery' ? 'delivery' : 'pickup'`. -/
def shipMethodOf (body : Body) : String :=
  if body.shippingMethod = some "delivery" then "delivery" else "pickup"

/-- `shippingMethod === 'delivery' ? 2000 : 0`. -/
def shipFeeOf (body : Body) : ℚ :=
  if shipMethodOf body = "delivery" then 2000 else 0

/-- `body?.addressId || body?.shippingAddressId || null`. -/
def addrOf (body : Body) : Option String :=
  match body.addressId with
  | some a => some a
  | none => body.shippingAddressId

/-- The frozen order lines built from the cart by `getOrCreateOrderFromCart`:
`price = Number(i.price) || 0`, `qty = Number(i.qty) || 0`,
`subtotal = Number((price * qty).toFixed(2))`. -/
def orderItemsOf (cart : Cart) : List OrderItem :=
  cart.items.map fun i =>
    { productId := i.productId
      title := i.title
      price := i.price
      qty := i.qty
      subtotal := round2 (i.price * (i.qty : ℚ)) }

/-- `open?.expiresAt ? open.expiresAt <= now : false` (a Date is truthy). -/
def isExpiredAt (o : Order) (now : Nat) : Bool :=
  match o.expiresAt with
  | some t => decide (t ≤ now)
  | none => false

/-- The `findOne({userId, status: 'created'})` predicate. -/
def openPred (userId : String) (o : Order) : Bool :=
  decide (o.userId = userId ∧ o.status = OrderStatus.created)

/-- The result bundle `{ order, shippingMethod, shippingFee, cartHash }`
returned by `getOrCreateOrderFromCart`. -/
structure MatResult where
  order : Order
  shippingMethod : String
  shippingFee : ℚ
  cartHash : HashPayload
deriving Repr, DecidableEq

/-- `Order.create({...})` of step 5 of `getOrCreateOrderFromCart`: a new
`created` order with `attemptCount = 0` and `expiresAt = now + 24h`. -/
def createNew (s : Store) (now : Nat) (userId : String) (items : List OrderItem)
    (subtotal discount total : ℚ) (m : String) (fee : ℚ) (addr : Option String)
    (cartHash : HashPayload) : Store × MatResult :=
  let order : Order :=
    { id := s.nextId
      userId := userId
      items := items
      subtotal := subtotal
      discount := discount
      total := total
      shippingMethod := m
      shippingFee := fee
      shippingAddressId := addr
      status := .created
      mpPreferenceId := none
      mpPaymentId := none
      cartHash := some cartHash
      attemptCount := 0
      lastAttemptAt := some now
      expiresAt := some (now + 24 * 60 * 60 * 1000)
      createdAt := now }
  ({ orders := s.orders ++ [order], nextId := s.nextId + 1 },
   { order := order, shippingMethod := m, shippingFee := fee, cartHash := cartHash })

/-- Model of `getOrCreateOrderFromCart` (order.controller.js).  The source
looks up the most recent `created` order of the user (`sort({createdAt: -1})`);
the partial unique index of Order.js ("at most one `created` document per
user") makes at most one match possible, so the lookup is modelled as the
first match.  Reuse increments `attemptCount` (`(open.attemptCount || 0) + 1`,
which on naturals is `+ 1`), refreshes the frozen snapshot in place and keeps
the order's identity; an expired or fingerprint-mismatched order is first
transitioned to `expired`/`abandoned` (its `save()` succeeds: the schema
includes both states), then a fresh order is created.  Totals: the session
cart always carries `subtotal`/`discount`/`total`, so the `??` fallbacks of the
source collapse to the cart fields. -/
def getOrCreateOrderFromCart (s : Store) (now : Nat) (userId : String) (cart : Cart)
    (body : Body) : Store × MatResult :=
  let m := shipMethodOf body
  let fee := shipFeeOf body
  let items := orderItemsOf cart
  let subtotal := round2 cart.subtotal
  let discount := round2 cart.discount
  let baseTotal := round2 cart.total
  let total := round2 (baseTotal + fee)
  let cartHash := computeCartHash cart m fee
  match s.orders.find? (openPred userId) with
  | some openOrd =>
    let isExp := isExpiredAt openOrd now
    if isExp = false ∧ openOrd.cartHash = some cartHash then
      let upd : Order :=
        { openOrd with
          attemptCount := openOrd.attemptCount + 1
          lastAttemptAt := some now
          subtotal := subtotal
          discount := discount
          shippingFee := fee
          shippingMethod := m
          shippingAddressId := addrOf body
          total := total
          items := items }
      ({ s with orders := s.orders.map fun x => if x.id = openOrd.id then upd else x },
       { order := upd, shippingMethod := m, shippingFee := fee, cartHash := cartHash })
    else
      let retired : Order := { openOrd with status := if isExp then .expired else .abandoned }
      let s1 : Store :=
        { s with orders := s.orders.map fun x => if x.id = openOrd.id then retired else x }
      createNew s1 now userId items subtotal discount total m fee (addrOf body) cartHash
  | none => createNew s now userId items subtotal discount total m fee (addrOf body) cartHash

/-- The payment-return query parameters extracted by `getMpReturnParams`
(order.controller.js); `externalReference` carries the order id. -/
structure MpParams where
  paymentId : Option String
  status : Option String
  preferenceId : Option String
  externalReference : Option Nat
deriving Repr, DecidableEq

/-- `Order.findById`. -/
def findById (s : Store) (i : Nat) : Option Order :=
  s.orders.find? (fun o => decide (o.id = i))

/-- `Order.findOne({mpPreferenceId: preferenceId})`. -/
def findByPref (s : Store) (p : String) : Option Order :=
  s.orders.find? (fun o => decide (o.mpPreferenceId = some p))

/-- The order lookup shared by the three return handlers:
`(externalReference && findById(...)) || (preferenceId && findOne(...))`. -/
def resolveOrder (s : Store) (pm : MpParams) : Option Order :=
  let second : Option Order := match pm.preferenceId with
    | some p => findByPref s p
    | none => none
  match pm.externalReference with
  | some r =>
    match findById s r with
    | some o => some o
    | none => second
  | none => second

/-- The local `updateOrderMpFields(orderId, patch)` of order.controller.js:
`findByIdAndUpdate` setting precomputed values on the stored document. -/
def updateOrderMpFields (s : Store) (i : Nat) (payment pref : Option String)
    (st : OrderStatus) : Store :=
  { s with orders := s.orders.map fun x =>
      if x.id = i then { x with mpPaymentId := payment, mpPreferenceId := pref, status := st }
      else x }

/-- Model of `getCheckoutSuccess` (order.controller.js): resolve the order,
set its status to `approved` only when the reported status is `approved`
(otherwise keep the current status), and record the freshest payment ids
(`paymentId || order.mpPaymentId`, `preferenceId || order.mpPreferenceId`).
Returns the store and the patched order (`none` renders the not-found page
without touching the store).  The session-cart clearing on approval is a
side effect outside the store model. -/
def getCheckoutSuccess (s : Store) (pm : MpParams) : Store × Option Order :=
  match resolveOrder s pm with
  | none => (s, none)
  | some o =>
    let newStatus := if pm.status = some "approved" then OrderStatus.approved else o.status
    let payment := match pm.paymentId with
      | some p => some p
      | none => o.mpPaymentId
    let pref := match pm.preferenceId with
      | some p => some p
      | none => o.mpPreferenceId
    (updateOrderMpFields s o.id payment pref newStatus,
     some { o with mpPaymentId := payment, mpPreferenceId := pref, status := newStatus })

/-- Model of `getCheckoutPending` (order.controller.js): resolve the order and
set its status to `pending` unconditionally, recording the payment ids. -/
def getCheckoutPending (s : Store) (pm : MpParams) : Store × Option Order :=
  match resolveOrder s pm with
  | none => (s, none)
  | some o =>
    let payment := match pm.paymentId with
      | some p => some p
      | none => o.mpPaymentId
    let pref := match pm.preferenceId with
      | some p => some p
      | none => o.mpPreferenceId
    (updateOrderMpFields s o.id payment pref .pending,
     some { o with mpPaymentId := payment, mpPreferenceId := pref, status := .pending })

/-- Model of `getCheckoutFailure` (order.controller.js): resolve the order and
set its status to `rejected` unconditionally, recording the payment ids. -/
def getCheckoutFailure (s : Store) (pm : MpParams) : Store × Option Order :=
  match resolveOrder s pm with
  | none => (s, none)
  | some o =>
    let payment := match pm.paymentId with
      | some p => some p
      | none => o.mpPaymentId
    let pref := match pm.preferenceId with
      | some p => some p
      | none => o.mpPreferenceId
    (updateOrderMpFields s o.id payment pref .rejected,
     some { o with mpPaymentId := payment, mpPreferenceId := pref, status := .rejected })

/-- The cart states reachable through the public `CartService` operations,
starting from the empty session cart. -/
inductive Reachable : Cart → Prop where
  | init : Reachable emptyCart
  | add {c c' : Cart} {p : Product} {q : ℚ} :
      Reachable c → CartService.add c p q = .ok c' → Reachable c'
  | setQty {c : Cart} {pid : String} {q : ℚ} {p : Option Product} :
      Reachable c → Reachable (CartService.setQty c pid q p)
  | remove {c : Cart} {pid : String} :
      Reachable c → Reachable (CartService.remove c pid)
  | clear {c : Cart} : Reachable c → Reachable (CartService.clear c)
  | recalc {c : Cart} {m : Option PMap} :
      Reachable c → Reachable (CartService.recalc c m)

/-- Number of `created`-status orders a user holds in the store. -/
def countCreated (s : Store) (u : String) : Nat :=
  s.orders.countP (openPred u)

/-- Store well-formedness guaranteed by Mongo: document ids are pairwise
distinct and below the fresh-id counter. -/
def StoreWF (s : Store) : Prop :=
  (s.orders.map (fun o => o.id)).Nodup ∧ ∀ o ∈ s.orders, o.id < s.nextId

/-- One checkout submission: the arguments of a `getOrCreateOrderFromCart`
call. -/
structure MatCall where
  now : Nat
  userId : String
  cart : Cart
  body : Body

/-- Run a sequence of checkout submissions against the store, one at a time. -/
def runCalls (s : Store) (calls : List MatCall) : Store :=
  calls.foldl (fun st cl => (getOrCreateOrderFromCart st cl.now cl.userId cl.cart cl.body).1) s

/-
Concrete fixtures used by counterexamples and witnesses.  `demoProduct` is the
promotion scenario of the spec (base price 10.00, 25% promo, stock 5);
`demoProduct20` differs only in the promo percentage, hence only in the
promotional final price. -/

/-- An active product with a 25% promotion. -/
def demoProduct : Product :=
  { id := some "p1", title := "T", imageUrl := none, price := 10, stock := some 5,
    promoEnabled := true, promoPct := some 25, active := true }

/-- The same product with a 20% promotion (same base price). -/
def demoProduct20 : Product :=
  { demoProduct with promoPct := some 20 }

/-- The session cart after adding two units of `demoProduct`. -/
def demoCart : Cart :=
  { items := [{ productId := "p1", title := "T", imageUrl := none, qty := 2, stock := 5,
                price := 10, promoPrice := some (15/2 : ℚ), unitBaseCents := 1000,
                unitFinalCents := 750, unitDiscountCents := 250, lineSubtotal := 15,
                _adjusted := false }],
    count := 2, subtotal := 15, discount := 5, total := 15,
    _meta := { subtotalCents := 1500, discountCents := 500, totalCents := 1500 } }

/-- The session cart after adding two units of `demoProduct20`: the same base
prices and quantities as `demoCart`, a different promotional final price. -/
def demoCart20 : Cart :=
  { items := [{ productId := "p1", title := "T", imageUrl := none, qty := 2, stock := 5,
                price := 10, promoPrice := some 8, unitBaseCents := 1000,
                unitFinalCents := 800, unitDiscountCents := 200, lineSubtotal := 16,
                _adjusted := false }],
    count := 2, subtotal := 16, discount := 4, total := 16,
    _meta := { subtotalCents := 1600, discountCents := 400, totalCents := 1600 } }

/-- The single line of `demoCart`. -/
def demoLine : CartItem :=
  { productId := "p1", title := "T", imageUrl := none, qty := 2, stock := 5,
    price := 10, promoPrice := some (15/2 : ℚ), unitBaseCents := 1000,
    unitFinalCents := 750, unitDiscountCents := 250, lineSubtotal := 15,
    _adjusted := false }

/-- A checkout body selecting pickup (no shipping fee). -/
def pickupBody : Body :=
  { shippingMethod := none, addressId := none, shippingAddressId := none }

/-- An order that has already reached `approved`. -/
def approvedOrder : Order :=
  { id := 0, userId := "u",
    items := [{ productId := "p1", title := "T", price := 10, qty := 2, subtotal := 20 }],
    subtotal := 15, discount := 5, total := 15, shippingMethod := "pickup", shippingFee := 0,
    shippingAddressId := none, status := .approved, mpPreferenceId := some "pref",
    mpPaymentId := none, cartHash := none, attemptCount := 0, lastAttemptAt := none,
    expiresAt := none, createdAt := 0 }

/-- A store holding only `approvedOrder`. -/
def approvedStore : Store := { orders := [approvedOrder], nextId := 1 }

/-- A reconciliation callback reporting outcome `pending` for order 0. -/
def pmPendingParams : MpParams :=
  { paymentId := none, status := some "pending", preferenceId := none, externalReference := some 0 }

/-- A reconciliation callback reporting outcome `rejected` for order 0. -/
def pmRejectedParams : MpParams :=
  { paymentId := none, status := some "rejected", preferenceId := none, externalReference := some 0 }

/-- An unexpired open (`created`) order of user "u", fingerprinted for the
empty cart (hence mismatching `demoCart`). -/
def openOrderU : Order :=
  { id := 0, userId := "u",
    items := [{ productId := "p1", title := "T", price := 10, qty := 2, subtotal := 20 }],
    subtotal := 15, discount := 5, total := 15, shippingMethod := "pickup", shippingFee := 0,
    shippingAddressId := none, status := .created, mpPreferenceId := none, mpPaymentId := none,
    cartHash := some (computeCartHash emptyCart "pickup" 0), attemptCount := 0,
    lastAttemptAt := none, expiresAt := some 1000000, createdAt := 0 }

/-- A store holding only `openOrderU`. -/
def openStoreU : Store := { orders := [openOrderU], nextId := 1 }

/- ------------------------------------------------------------------ -/
/- Arithmetic helper lemmas                                            -/
/- ------------------------------------------------------------------ -/

theorem jround_intCast (n : ℤ) : jround (n : ℚ) = n := by
  unfold jround
  rw [Int.floor_int_add]
  norm_num

theorem round2_cents_add_int (m k : ℤ) : round2 (fromCents m + (k : ℚ)) = fromCents m + k := by
  unfold round2 toCents fromCents
  have h1 : ((m : ℚ) / 100 + (k : ℚ)) * 100 = ((m + k * 100 : ℤ) : ℚ) := by
    push_cast
    ring
  rw [h1, jround_intCast]
  push_cast
  ring

theorem round2_fromCents (m : ℤ) : round2 (fromCents m) = fromCents m := by
  have h := round2_cents_add_int m 0
  simpa using h

theorem shipFeeOf_int (body : Body) : ∃ k : ℤ, shipFeeOf body = (k : ℚ) := by
  unfold shipFeeOf
  split
  · exact ⟨2000, by norm_num⟩
  · exact ⟨0, by norm_num⟩

theorem ratTrunc_nonpos {q : ℚ} (h : q < 1) : ratTrunc q ≤ 0 := by
  unfold ratTrunc
  split
  · have := Int.floor_lt.mpr (by exact_mod_cast h : q < ((1 : ℤ) : ℚ))
    omega
  · exact Int.ceil_le.mpr (by push_cast; linarith)

theorem one_le_ratTrunc {q : ℚ} (h : 1 ≤ q) : 1 ≤ ratTrunc q := by
  unfold ratTrunc
  rw [if_pos (by linarith)]
  exact Int.le_floor.mpr (by exact_mod_cast h)

/- ------------------------------------------------------------------ -/
/- C4: fingerprint determinism / sensitivity                           -/
/- ------------------------------------------------------------------ -/

/-- C4 (counterexample).  The claim says any two inputs differing in some
item's price, "including the promotional final price", yield different
digests.  `demoCart` and `demoCart20` are both produced by `CartService.add`
on the empty cart, differ exactly in the promotional final price of their one
line (promoPrice 7.50 vs 8.00, unitFinalCents 750 vs 800), yet
`computeCartHash` — which serializes only `(productId, title, price, qty)`
with `price` the unit BASE price — gives them the same digest. -/
theorem C4_counterexample :
    CartService.add emptyCart demoProduct 2 = .ok demoCart ∧
    CartService.add emptyCart demoProduct20 2 = .ok demoCart20 ∧
    demoCart.items.map (fun i => i.promoPrice) ≠ demoCart20.items.map (fun i => i.promoPrice) ∧
    demoCart.items.map (fun i => i.unitFinalCents) ≠ demoCart20.items.map (fun i => i.unitFinalCents) ∧
    demoCart.items.map (fun i => i.price) = demoCart20.items.map (fun i => i.price) ∧
    computeCartHash demoCart "pickup" 0 = computeCartHash demoCart20 "pickup" 0 := by
  with_unfolding_all decide

/-- C4 (amended).  `computeCartHash` is deterministic, and two inputs collide
exactly when they agree on the ordered `(productId, title, base price,
quantity)` projections of their items and on the shipping method and fee; in
particular a difference only in an item's promotional final price does not
change the digest, while any difference in base price, quantity, item
set/order, or shipping choice does. -/
theorem C4_amended (c1 c2 : Cart) (m1 m2 : String) (f1 f2 : ℚ) :
    computeCartHash c1 m1 f1 = computeCartHash c2 m2 f2 ↔
      (c1.items.map hashItemOf = c2.items.map hashItemOf ∧ m1 = m2 ∧ f1 = f2) := by
  unfold computeCartHash
  constructor
  · intro h
    exact ⟨congrArg HashPayload.items h, congrArg HashPayload.shippingMethod h,
      congrArg HashPayload.shippingFee h⟩
  · rintro ⟨h1, h2, h3⟩
    rw [h1, h2, h3]

/- ------------------------------------------------------------------ -/
/- C7: add error taxonomy                                              -/
/- ------------------------------------------------------------------ -/

/-- C7 (counterexample).  The claim says `add` fails with `InvalidQuantity`
exactly when the requested quantity is `<= 0` and succeeds otherwise; but the
source truncates the quantity (`Math.trunc`), so a fractional quantity of 1/2
— strictly positive, on a fully valid product — still fails with
`INVALID_QTY`. -/
theorem C7_counterexample :
    (0 : ℚ) < 1/2 ∧ demoProduct.id ≠ none ∧ demoProduct.active = true ∧
    0 < demoProduct.stock.getD 0 ∧
    CartService.add emptyCart demoProduct (1/2) =
      .error ⟨"Cantidad inválida.", "INVALID_QTY"⟩ := by
  with_unfolding_all decide

/-- C7 (amended).  `CartService.add` fails with `InvalidProduct` when the
product lacks an identifier; then with `NotActive` when `active === false`;
then with `OutOfStock` when the clamped stock is `<= 0`; then with
`InvalidQuantity` when the TRUNCATED quantity is `<= 0`, i.e. when the
requested quantity is `< 1` (not `<= 0` as claimed); and succeeds otherwise.
Every failure is raised before any cart mutation, so the cart is unchanged in
each failure case (the error result carries no new cart state). -/
theorem C7_amended (c : Cart) (p : Product) (q : ℚ) :
    (p.id = none →
      CartService.add c p q = .error ⟨"Producto inválido.", "INVALID_PRODUCT"⟩) ∧
    (p.id ≠ none → p.active = false →
      CartService.add c p q = .error ⟨"El producto no está activo.", "NOT_ACTIVE"⟩) ∧
    (p.id ≠ none → p.active = true → p.stock.getD 0 ≤ 0 →
      CartService.add c p q = .error ⟨"Sin stock disponible.", "OUT_OF_STOCK"⟩) ∧
    (p.id ≠ none → p.active = true → 0 < p.stock.getD 0 → q < 1 →
      CartService.add c p q = .error ⟨"Cantidad inválida.", "INVALID_QTY"⟩) ∧
    (p.id ≠ none → p.active = true → 0 < p.stock.getD 0 → 1 ≤ q →
      ∃ c', CartService.add c p q = .ok c') := by
  refine ⟨?_, ?_, ?_, ?_, ?_⟩
  · intro hid
    unfold CartService.add
    rw [hid]
  · intro hid hact
    match hp : p.id with
    | none => exact absurd hp hid
    | some pid =>
      unfold CartService.add
      rw [hp, hact]
      simp
  · intro hid hact hstock
    match hp : p.id with
    | none => exact absurd hp hid
    | some pid =>
      unfold CartService.add
      rw [hp, hact]
      simp only [Bool.true_eq_false, if_false]
      rw [if_pos (by omega : max (p.stock.getD 0) 0 ≤ 0)]
  · intro hid hact hstock hq
    match hp : p.id with
    | none => exact absurd hp hid
    | some pid =>
      unfold CartService.add
      rw [hp, hact]
      simp only [Bool.true_eq_false, if_false]
      rw [if_neg (by omega : ¬ max (p.stock.getD 0) 0 ≤ 0),
        if_pos (ratTrunc_nonpos hq)]
  · intro hid hact hstock hq
    match hp : p.id with
    | none => exact absurd hp hid
    | some pid =>
      unfold CartService.add
      rw [hp, hact]
      simp only [Bool.true_eq_false, if_false]
      rw [if_neg (by omega : ¬ max (p.stock.getD 0) 0 ≤ 0),
        if_neg (by have := one_le_ratTrunc hq; omega : ¬ ratTrunc q ≤ 0)]
      match hm : CartService.mergeFirst c.items pid _ with
      | some items1 => exact ⟨_, rfl⟩
      | none => exact ⟨_, rfl⟩

/-- C7 (witness): the amended theorem applied at the empty cart, a fully valid
product and quantity 2 yields a successful add. -/
theorem C7_witness : ∃ c', CartService.add emptyCart demoProduct 2 = .ok c' :=
  (C7_amended emptyCart demoProduct 2).2.2.2.2 (by with_unfolding_all decide) (by with_unfolding_all decide) (by with_unfolding_all decide) (by norm_num)

/- ------------------------------------------------------------------ -/
/- C9: recalc idempotence                                              -/
/- ------------------------------------------------------------------ -/

/- Projection and stability lemmas for the per-item pass of `recalc`. -/

theorem CartItem.ext' {a b : CartItem}
    (h1 : a.productId = b.productId) (h2 : a.title = b.title) (h3 : a.imageUrl = b.imageUrl)
    (h4 : a.qty = b.qty) (h5 : a.stock = b.stock) (h6 : a.price = b.price)
    (h7 : a.promoPrice = b.promoPrice) (h8 : a.unitBaseCents = b.unitBaseCents)
    (h9 : a.unitFinalCents = b.unitFinalCents) (h10 : a.unitDiscountCents = b.unitDiscountCents)
    (h11 : a.lineSubtotal = b.lineSubtotal) (h12 : a._adjusted = b._adjusted) : a = b := by
  cases a
  cases b
  simp_all

@[simp] theorem finishItem_productId (it : CartItem) :
    (CartService.finishItem it).productId = it.productId := rfl

@[simp] theorem finishItem_qty (it : CartItem) :
    (CartService.finishItem it).qty = it.qty := rfl

@[simp] theorem finishItem_stock (it : CartItem) :
    (CartService.finishItem it).stock = it.stock := rfl

@[simp] theorem finishItem_title (it : CartItem) :
    (CartService.finishItem it).title = it.title := rfl

@[simp] theorem finishItem_imageUrl (it : CartItem) :
    (CartService.finishItem it).imageUrl = it.imageUrl := rfl

@[simp] theorem finishItem_price (it : CartItem) :
    (CartService.finishItem it).price = it.price := rfl

@[simp] theorem finishItem_promoPrice (it : CartItem) :
    (CartService.finishItem it).promoPrice = it.promoPrice := rfl

@[simp] theorem finishItem_unitBaseCents (it : CartItem) :
    (CartService.finishItem it).unitBaseCents = it.unitBaseCents := rfl

@[simp] theorem finishItem_unitFinalCents (it : CartItem) :
    (CartService.finishItem it).unitFinalCents = it.unitFinalCents := rfl

@[simp] theorem finishItem_unitDiscountCents (it : CartItem) :
    (CartService.finishItem it).unitDiscountCents = it.unitDiscountCents := rfl

@[simp] theorem finishItem_adjusted (it : CartItem) :
    (CartService.finishItem it)._adjusted = it._adjusted := rfl

theorem finishItem_lineSubtotal (it : CartItem) :
    (CartService.finishItem it).lineSubtotal = fromCents (CartService.lineFinalCents it) := rfl

theorem lineFinalCents_finishItem (it : CartItem) :
    CartService.lineFinalCents (CartService.finishItem it) = CartService.lineFinalCents it := rfl

theorem finishItem_idem (it : CartItem) :
    CartService.finishItem (CartService.finishItem it) = CartService.finishItem it := rfl

@[simp] theorem refreshFromFresh_productId (it : CartItem) (f : Product) :
    (CartService.refreshFromFresh it f).productId = it.productId := rfl

@[simp] theorem refreshFromFresh_title (it : CartItem) (f : Product) :
    (CartService.refreshFromFresh it f).title = f.title := rfl

@[simp] theorem refreshFromFresh_lineSubtotal (it : CartItem) (f : Product) :
    (CartService.refreshFromFresh it f).lineSubtotal = it.lineSubtotal := rfl

theorem refreshFromFresh_stock (it : CartItem) (f : Product) :
    (CartService.refreshFromFresh it f).stock
      = match f.stock with
        | some s => max s 0
        | none => it.stock := rfl

theorem refreshFromFresh_qty (it : CartItem) (f : Product) :
    (CartService.refreshFromFresh it f).qty
      = (if (match f.stock with | some s => max s 0 | none => it.stock) < it.qty
          then (match f.stock with | some s => max s 0 | none => it.stock) else it.qty) := rfl

theorem refreshFromFresh_imageUrl (it : CartItem) (f : Product) :
    (CartService.refreshFromFresh it f).imageUrl
      = match f.imageUrl with
        | some u => some u
        | none => it.imageUrl := rfl

theorem refreshFromFresh_adjusted (it : CartItem) (f : Product) :
    (CartService.refreshFromFresh it f)._adjusted
      = (if (match f.stock with | some s => max s 0 | none => it.stock) < it.qty
          then true else it._adjusted) := rfl

theorem refreshFromFresh_price (it : CartItem) (f : Product) :
    (CartService.refreshFromFresh it f).price = fromCents (computeUnitPrice f).unitBaseCents := rfl

theorem refreshFromFresh_promoPrice (it : CartItem) (f : Product) :
    (CartService.refreshFromFresh it f).promoPrice
      = (if (computeUnitPrice f).unitFinalCents ≠ (computeUnitPrice f).unitBaseCents
          then some (fromCents (computeUnitPrice f).unitFinalCents) else none) := rfl

theorem refreshFromFresh_unitBaseCents (it : CartItem) (f : Product) :
    (CartService.refreshFromFresh it f).unitBaseCents = (computeUnitPrice f).unitBaseCents := rfl

theorem refreshFromFresh_unitFinalCents (it : CartItem) (f : Product) :
    (CartService.refreshFromFresh it f).unitFinalCents = (computeUnitPrice f).unitFinalCents := rfl

theorem refreshFromFresh_unitDiscountCents (it : CartItem) (f : Product) :
    (CartService.refreshFromFresh it f).unitDiscountCents = (computeUnitPrice f).unitDiscountCents := rfl

/-- The fresh refresh only reads the fields other than `lineSubtotal`, so it
commutes with replacing `lineSubtotal`. -/
theorem refreshFromFresh_setLs (it : CartItem) (f : Product) (x : ℚ) :
    CartService.refreshFromFresh { it with lineSubtotal := x } f
      = { CartService.refreshFromFresh it f with lineSubtotal := x } := rfl

/-- Refreshing twice from the same fresh product (with a numeric stock) is the
same as refreshing once: the second pass finds the quantity already capped. -/
theorem refreshFromFresh_idem {f : Product} {s : ℤ} (hs : f.stock = some s) (it : CartItem) :
    CartService.refreshFromFresh (CartService.refreshFromFresh it f) f
      = CartService.refreshFromFresh it f := by
  apply CartItem.ext' <;>
    simp only [refreshFromFresh_productId, refreshFromFresh_title, refreshFromFresh_imageUrl,
      refreshFromFresh_qty, refreshFromFresh_stock, refreshFromFresh_price,
      refreshFromFresh_promoPrice, refreshFromFresh_unitBaseCents, refreshFromFresh_unitFinalCents,
      refreshFromFresh_unitDiscountCents, refreshFromFresh_lineSubtotal,
      refreshFromFresh_adjusted, hs] <;>
    first
      | rfl
      | (cases f.imageUrl <;> rfl)
      | (split_ifs <;> first | rfl | omega)

theorem refresh_finishItem_eq {f : Product} {s : ℤ} (hs : f.stock = some s) (it : CartItem) :
    CartService.refreshFromFresh (CartService.finishItem (CartService.refreshFromFresh it f)) f
      = CartService.finishItem (CartService.refreshFromFresh it f) := by
  show CartService.refreshFromFresh
      { CartService.refreshFromFresh it f with
        lineSubtotal := fromCents (CartService.lineFinalCents (CartService.refreshFromFresh it f)) } f = _
  rw [refreshFromFresh_setLs, refreshFromFresh_idem hs]
  rfl

theorem processItem_fix {m : Option PMap} {it it' : CartItem}
    (h : CartService.processItem m it = some it') :
    CartService.processItem m it' = some it' := by
  cases m with
  | none =>
    simp only [CartService.processItem] at h ⊢
    split at h
    · exact absurd h (by simp)
    · rename_i hcond
      rw [Option.some.injEq] at h
      subst h
      simp only [finishItem_qty, finishItem_stock]
      rw [if_neg hcond, finishItem_idem]
  | some pm =>
    simp only [CartService.processItem] at h ⊢
    cases hf : pm it.productId with
    | none =>
      simp only [hf] at h
      split at h
      · exact absurd h (by simp)
      · rename_i hcond
        rw [Option.some.injEq] at h
        subst h
        simp only [finishItem_qty, finishItem_stock, finishItem_productId, hf]
        rw [if_neg hcond, finishItem_idem]
    | some f =>
      simp only [hf] at h
      cases hs : f.stock with
      | none =>
        simp only [hs] at h
        simp at h
      | some s =>
        simp only [hs] at h
        split at h
        · exact absurd h (by simp)
        · rename_i hcond
          rw [Option.some.injEq] at h
          subst h
          simp only [finishItem_productId, refreshFromFresh_productId, hf, hs,
            refresh_finishItem_eq hs, finishItem_qty]
          rw [if_neg hcond, finishItem_idem]

theorem filterMap_processItem_idem (m : Option PMap) (l : List CartItem) :
    (l.filterMap (CartService.processItem m)).filterMap (CartService.processItem m)
      = l.filterMap (CartService.processItem m) := by
  induction l with
  | nil => rfl
  | cons a t ih =>
    cases hfa : CartService.processItem m a with
    | none => simpa [List.filterMap_cons, hfa] using ih
    | some b =>
      simp [List.filterMap_cons, hfa, processItem_fix hfa, ih]

/-- C9: calling `recalc` twice consecutively with the same fresh-products
argument (or none) and no intervening mutation yields, after the second call,
exactly the same cart — in particular the same subtotal, discount, total, item
count, and items sequence — as after the first call. -/
theorem C9_recalc_idempotent (c : Cart) (m : Option PMap) :
    CartService.recalc (CartService.recalc c m) m = CartService.recalc c m := by
  unfold CartService.recalc
  rw [filterMap_processItem_idem]

/- ------------------------------------------------------------------ -/
/- C10: total equals subtotal on every reachable cart                  -/
/- ------------------------------------------------------------------ -/

theorem recalc_total_eq (c : Cart) (m : Option PMap) :
    (CartService.recalc c m).total = (CartService.recalc c m).subtotal ∧
      (CartService.recalc c m)._meta.totalCents = (CartService.recalc c m)._meta.subtotalCents := by
  have hnn : 0 ≤ ((c.items.filterMap (CartService.processItem m)).map CartService.lineFinalCents).sum := by
    apply List.sum_nonneg
    intro x hx
    rcases List.mem_map.mp hx with ⟨it, _, rfl⟩
    exact le_max_right _ _
  unfold CartService.recalc
  constructor
  · show fromCents (max _ 0) = fromCents _
    rw [max_eq_left hnn]
  · show max _ 0 = _
    rw [max_eq_left hnn]

theorem add_ok_recalc {c c' : Cart} {p : Product} {q : ℚ}
    (h : CartService.add c p q = .ok c') : ∃ c0, c' = CartService.recalc c0 none := by
  unfold CartService.add at h
  repeat' first
    | split at h
    | dsimp only at h
  all_goals
    first
      | exact Except.noConfusion h
      | (rw [Except.ok.injEq] at h; exact ⟨_, h.symm⟩)

theorem setQty_cases (c : Cart) (pid : String) (q : ℚ) (p : Option Product) :
    CartService.setQty c pid q p = c ∨
      ∃ c0, CartService.setQty c pid q p = CartService.recalc c0 none := by
  unfold CartService.setQty
  dsimp only
  split
  · exact Or.inr ⟨_, rfl⟩
  · exact Or.inl rfl

/-- Invariant: on every reachable cart, the displayed total equals the
subtotal (and likewise for the internal cent meta fields). -/
theorem reachable_total_eq {c : Cart} (hr : Reachable c) :
    c.total = c.subtotal ∧ c._meta.totalCents = c._meta.subtotalCents := by
  induction hr with
  | init => exact ⟨rfl, rfl⟩
  | add _ hok _ =>
    rcases add_ok_recalc hok with ⟨c0, rfl⟩
    exact recalc_total_eq c0 none
  | setQty hr ih =>
    rcases setQty_cases _ _ _ _ with heq | ⟨c0, heq⟩
    · rw [heq]; exact ih
    · rw [heq]; exact recalc_total_eq c0 none
  | remove hr ih => exact recalc_total_eq _ none
  | clear hr ih => exact recalc_total_eq _ none
  | recalc hr ih => exact recalc_total_eq _ _

/-- C10: every cart state reachable through the public CartService operations
(add, setQty, remove, clear, recalc) satisfies `total = subtotal`: the
recomputed total is exactly the subtotal of final (post-promotion) line
prices, and the reported `discount` is informational only — never subtracted
from the total. -/
theorem C10_total_eq_subtotal {c : Cart} (hr : Reachable c) : c.total = c.subtotal :=
  (reachable_total_eq hr).1

/-- C10 (witness): the invariant evaluated on the concrete reachable cart
`demoCart`, which carries a nonzero `discount` (5) yet has `total = subtotal`. -/
theorem C10_witness : demoCart.total = demoCart.subtotal :=
  C10_total_eq_subtotal
    (Reachable.add Reachable.init
      (show CartService.add emptyCart demoProduct 2 = .ok demoCart by
        with_unfolding_all decide))

/- ------------------------------------------------------------------ -/
/- C8: clamping invariant of add                                       -/
/- ------------------------------------------------------------------ -/

theorem mergeFirst_eq_some {l : List CartItem} {pid : String} {f : CartItem → CartItem}
    {l' : List CartItem} (h : CartService.mergeFirst l pid f = some l') :
    ∃ l1 y l2, l = l1 ++ y :: l2 ∧ l' = l1 ++ f y :: l2 ∧ y.productId = pid ∧
      ∀ z ∈ l1, z.productId ≠ pid := by
  induction l generalizing l' with
  | nil => exact absurd h (by simp [CartService.mergeFirst])
  | cons a t ih =>
    rw [CartService.mergeFirst] at h
    by_cases ha : a.productId = pid
    · rw [if_pos ha, Option.some.injEq] at h
      exact ⟨[], a, t, by simp, by simp [h.symm], ha, by simp⟩
    · rw [if_neg ha] at h
      cases hm : CartService.mergeFirst t pid f with
      | none => rw [hm] at h; exact absurd h (by simp)
      | some t' =>
        rw [hm] at h
        simp only [Option.map_some', Option.some.injEq] at h
        rcases ih hm with ⟨l1, y, l2, he1, he2, he3, he4⟩
        refine ⟨a :: l1, y, l2, by simp [he1], by simp [← h, he2], he3, ?_⟩
        intro z hz
        rcases List.mem_cons.mp hz with rfl | hz
        · exact ha
        · exact he4 z hz

theorem mergeFirst_eq_none {l : List CartItem} {pid : String} {f : CartItem → CartItem}
    (h : CartService.mergeFirst l pid f = none) : ∀ z ∈ l, z.productId ≠ pid := by
  induction l with
  | nil => simp
  | cons a t ih =>
    rw [CartService.mergeFirst] at h
    by_cases ha : a.productId = pid
    · rw [if_pos ha] at h
      exact absurd h (by simp)
    · rw [if_neg ha] at h
      intro z hz
      rcases List.mem_cons.mp hz with rfl | hz
      · exact ha
      · cases hm : CartService.mergeFirst t pid f with
        | none => exact ih hm z hz
        | some t' => rw [hm] at h; exact absurd h (by simp)

theorem processItem_none_some {it it' : CartItem}
    (h : CartService.processItem none it = some it') :
    it' = CartService.finishItem it ∧ 0 < it.qty ∧ 0 < it.stock := by
  simp only [CartService.processItem] at h
  split at h
  · exact absurd h (by simp)
  · rename_i hcond
    rw [not_or] at hcond
    rw [Option.some.injEq] at h
    exact ⟨h.symm, by omega, by omega⟩

theorem processItem_productId {m : Option PMap} {it it' : CartItem}
    (h : CartService.processItem m it = some it') : it'.productId = it.productId := by
  cases m with
  | none =>
    rcases processItem_none_some h with ⟨rfl, -, -⟩
    rfl
  | some pm =>
    simp only [CartService.processItem] at h
    cases hf : pm it.productId with
    | none =>
      simp only [hf] at h
      split at h
      · exact absurd h (by simp)
      · rw [Option.some.injEq] at h
        subst h
        rfl
    | some f =>
      simp only [hf] at h
      split at h
      · exact absurd h (by simp)
      · rw [Option.some.injEq] at h
        subst h
        rfl

/-- Product ids of the surviving lines form a sublist of the original ids. -/
theorem filterMap_processItem_pids (m : Option PMap) (l : List CartItem) :
    ((l.filterMap (CartService.processItem m)).map (fun it => it.productId)).Sublist
      (l.map (fun it => it.productId)) := by
  induction l with
  | nil => simp
  | cons a t ih =>
    cases hfa : CartService.processItem m a with
    | none =>
      rw [List.filterMap_cons_none hfa, List.map_cons]
      exact ih.cons _
    | some b =>
      rw [List.filterMap_cons_some hfa, List.map_cons, List.map_cons,
        processItem_productId hfa]
      exact ih.cons₂ _

theorem setQtyUpd_productId {p : Option Product} {n : ℤ} {it it' : CartItem}
    (h : CartService.setQtyUpd p n it = some it') : it'.productId = it.productId := by
  unfold CartService.setQtyUpd at h
  split at h
  · exact absurd h (by simp)
  · cases p with
    | none =>
      rw [Option.some.injEq] at h
      subst h
      rfl
    | some pr =>
      cases hs : pr.stock with
      | none =>
        simp only [hs] at h
        rw [Option.some.injEq] at h
        subst h
        rfl
      | some ps =>
        simp only [hs] at h
        rw [Option.some.injEq] at h
        subst h
        rfl

theorem recalc_items (c : Cart) (m : Option PMap) :
    (CartService.recalc c m).items = c.items.filterMap (CartService.processItem m) := rfl

theorem replaceFirst_pids {l : List CartItem} {pid : String} {f : CartItem → Option CartItem}
    {l' : List CartItem} (hf : ∀ a z, f a = some z → z.productId = a.productId)
    (h : CartService.replaceFirst l pid f = some l') :
    ((l'.map (fun it => it.productId)).Sublist (l.map (fun it => it.productId))) := by
  induction l generalizing l' with
  | nil => exact absurd h (by simp [CartService.replaceFirst])
  | cons a t ih =>
    rw [CartService.replaceFirst] at h
    by_cases ha : a.productId = pid
    · rw [if_pos ha, Option.some.injEq] at h
      subst h
      cases hfa : f a with
      | none => simpa [hfa] using (List.sublist_cons_self _ _).map _
      | some a1 =>
        simp only [hfa, List.map_cons, hf a a1 hfa]
        exact List.Sublist.refl _
    · rw [if_neg ha] at h
      cases hm : CartService.replaceFirst t pid f with
      | none => rw [hm] at h; exact absurd h (by simp)
      | some t' =>
        rw [hm] at h
        simp only [Option.map_some', Option.some.injEq] at h
        subst h
        simpa using ((ih hm).cons₂ a.productId)

/-- Inversion of a successful `add`: the validated stock and quantity are
positive and the new cart is a recalc of the merged or extended line list. -/
theorem add_ok_inv {c c' : Cart} {p : Product} {q : ℚ} {pid : String}
    (hpid : p.id = some pid) (h : CartService.add c p q = .ok c') :
    0 < max (p.stock.getD 0) 0 ∧ 0 < ratTrunc q ∧
      ((∃ items1,
          CartService.mergeFirst c.items pid
              (CartService.mergeLine p (max (p.stock.getD 0) 0) (ratTrunc q) (computeUnitPrice p))
            = some items1 ∧
          c' = CartService.recalc { c with items := items1 } none) ∨
        (CartService.mergeFirst c.items pid
            (CartService.mergeLine p (max (p.stock.getD 0) 0) (ratTrunc q) (computeUnitPrice p))
          = none ∧
         c' = CartService.recalc
            { c with items := c.items ++
                [CartService.newLine pid p (max (p.stock.getD 0) 0) (ratTrunc q) (computeUnitPrice p)] }
            none)) := by
  unfold CartService.add at h
  rw [hpid] at h
  dsimp only at h
  split at h
  · exact Except.noConfusion h
  · split at h
    · exact Except.noConfusion h
    · split at h
      · exact Except.noConfusion h
      · rename_i hstock hqty
        refine ⟨by omega, by omega, ?_⟩
        cases hm : CartService.mergeFirst c.items pid
            (CartService.mergeLine p (max (p.stock.getD 0) 0) (ratTrunc q) (computeUnitPrice p)) with
        | some items1 =>
          rw [hm, Except.ok.injEq] at h
          exact Or.inl ⟨items1, rfl, h.symm⟩
        | none =>
          rw [hm, Except.ok.injEq] at h
          exact Or.inr ⟨rfl, h.symm⟩

/-- Invariant: reachable carts never hold two lines with the same product id. -/
theorem reachable_nodup_pids {c : Cart} (hr : Reachable c) :
    (c.items.map (fun it => it.productId)).Nodup := by
  induction hr with
  | init => simp [emptyCart]
  | add hr hok ih =>
    rename_i c c' p q
    cases hp : p.id with
    | none =>
      rw [CartService.add, hp] at hok
      exact absurd hok (by simp)
    | some pid =>
      rcases add_ok_inv hp hok with ⟨-, -, ⟨items1, hm, rfl⟩ | ⟨hm, rfl⟩⟩
      · rw [recalc_items]
        refine (filterMap_processItem_pids none items1).nodup ?_
        rcases mergeFirst_eq_some hm with ⟨l1, y, l2, he1, he2, hy, -⟩
        have hpe : items1.map (fun it => it.productId) = c.items.map (fun it => it.productId) := by
          rw [he1, he2]
          simp [CartService.mergeLine]
        rw [hpe]
        exact ih
      · rw [recalc_items]
        refine (filterMap_processItem_pids none _).nodup ?_
        rw [List.map_append, List.nodup_append]
        refine ⟨ih, by simp, ?_⟩
        intro z hz
        rcases List.mem_map.mp hz with ⟨a, ha, rfl⟩
        simp only [List.map_cons, List.map_nil, List.mem_singleton]
        intro hco
        exact (mergeFirst_eq_none hm a ha) (by simpa [CartService.newLine] using hco)
  | setQty hr ih =>
    rename_i c pid q p
    unfold CartService.setQty
    dsimp only
    cases hm : CartService.replaceFirst c.items pid (CartService.setQtyUpd p (ratTrunc q)) with
    | some items1 =>
      rw [recalc_items]
      refine (filterMap_processItem_pids none items1).nodup ?_
      exact ((replaceFirst_pids (fun a z => setQtyUpd_productId) hm).nodup ih)
    | none => exact ih
  | remove hr ih =>
    rename_i c pid
    unfold CartService.remove
    rw [recalc_items]
    refine (filterMap_processItem_pids none _).nodup ?_
    exact ((List.filter_sublist _).map _).nodup ih
  | clear hr ih => simp [CartService.clear, CartService.recalc]
  | recalc hr ih =>
    rename_i c m
    rw [recalc_items]
    exact (filterMap_processItem_pids m _).nodup ih

/-- C8: whenever `CartService.add` succeeds on a (reachable) session cart —
merging into an existing line or appending a new one — the resulting line for
that product has `1 <= qty` and `qty <= stock` (the product's clamped stock),
or no line for that product remains after the recalc. -/
theorem C8_clamping {c c' : Cart} {p : Product} {q : ℚ} {pid : String}
    (hr : Reachable c) (hpid : p.id = some pid)
    (h : CartService.add c p q = .ok c') :
    ∀ it ∈ c'.items, it.productId = pid →
      1 ≤ it.qty ∧ it.qty ≤ max (p.stock.getD 0) 0 := by
  rcases add_ok_inv hpid h with ⟨hstock, hqty, hcase⟩
  have hnd := reachable_nodup_pids hr
  intro it hit hitpid
  rcases hcase with ⟨items1, hm, rfl⟩ | ⟨hm, rfl⟩
  · rw [recalc_items] at hit
    rcases List.mem_filterMap.mp hit with ⟨a, ha, hpa⟩
    rcases processItem_none_some hpa with ⟨rfl, hq, -⟩
    rcases mergeFirst_eq_some hm with ⟨l1, y, l2, he1, he2, hy, hl1⟩
    have ha2 : a ∈ items1 := ha
    rw [he2] at ha2
    rw [show (CartService.finishItem a).productId = a.productId from rfl] at hitpid
    rcases List.mem_append.mp ha2 with ha3 | ha4
    · exact absurd hitpid (hl1 a ha3)
    · rcases List.mem_cons.mp ha4 with rfl | ha5
      · refine ⟨?_, ?_⟩
        · rw [finishItem_qty]; omega
        · rw [finishItem_qty]
          simp only [CartService.mergeLine]
          omega
      · exfalso
        rw [he1] at hnd
        simp only [List.map_append, List.map_cons] at hnd
        rcases List.nodup_append.mp hnd with ⟨-, hnd2, -⟩
        rcases List.nodup_cons.mp hnd2 with ⟨hyno, -⟩
        refine hyno ?_
        have hmem : a.productId ∈ List.map (fun it => it.productId) l2 :=
          List.mem_map.mpr ⟨a, ha5, rfl⟩
        rwa [hitpid, ← hy] at hmem
  · rw [recalc_items] at hit
    rcases List.mem_filterMap.mp hit with ⟨a, ha, hpa⟩
    rcases processItem_none_some hpa with ⟨rfl, hq, -⟩
    rw [show (CartService.finishItem a).productId = a.productId from rfl] at hitpid
    have ha2 : a ∈ c.items ++ [CartService.newLine pid p (max (p.stock.getD 0) 0)
        (ratTrunc q) (computeUnitPrice p)] := ha
    rcases List.mem_append.mp ha2 with ha3 | ha4
    · exact absurd hitpid (mergeFirst_eq_none hm a ha3)
    · rcases List.mem_singleton.mp ha4 with rfl
      refine ⟨?_, ?_⟩
      · rw [finishItem_qty]; omega
      · rw [finishItem_qty]
        simp only [CartService.newLine]
        omega

/-- C8 (witness): the clamping invariant instantiated on the empty cart with
`demoProduct` (stock 5) and quantity 2: the unique resulting line
(`demoLine`, the one line of `demoCart`) has `1 <= 2 <= 5`. -/
theorem C8_witness :
    1 ≤ demoLine.qty ∧ demoLine.qty ≤ max (demoProduct.stock.getD 0) 0 :=
  C8_clamping Reachable.init rfl
    (show CartService.add emptyCart demoProduct 2 = .ok demoCart by
      with_unfolding_all decide)
    demoLine (by with_unfolding_all decide) rfl

/- ------------------------------------------------------------------ -/
/- C5: frozen order totals                                             -/
/- ------------------------------------------------------------------ -/

/-- In every branch of `getOrCreateOrderFromCart` (create, reuse, retire and
recreate) the returned order freezes the same totals: `subtotal` and
`discount` are the rounded cart fields, and `total` is the rounded cart total
plus the shipping fee. -/
theorem matResult_totals (s : Store) (now : Nat) (u : String) (c : Cart) (body : Body) :
    (getOrCreateOrderFromCart s now u c body).2.order.subtotal = round2 c.subtotal ∧
    (getOrCreateOrderFromCart s now u c body).2.order.discount = round2 c.discount ∧
    (getOrCreateOrderFromCart s now u c body).2.order.shippingFee = shipFeeOf body ∧
    (getOrCreateOrderFromCart s now u c body).2.order.total
      = round2 (round2 c.total + shipFeeOf body) := by
  unfold getOrCreateOrderFromCart
  dsimp only
  cases hfind : s.orders.find? (openPred u) with
  | none => exact ⟨rfl, rfl, rfl, rfl⟩
  | some o =>
    dsimp only
    by_cases hc : isExpiredAt o now = false ∧
        o.cartHash = some (computeCartHash c (shipMethodOf body) (shipFeeOf body))
    · rw [if_pos hc]
      exact ⟨rfl, rfl, rfl, rfl⟩
    · rw [if_neg hc]
      exact ⟨rfl, rfl, rfl, rfl⟩

/-- C5 (amended).  For every order produced by `getOrCreateOrderFromCart`
from a cart maintained by `CartService`, the frozen totals satisfy
`total = subtotal + shippingFee` — the reported `discount` is NOT subtracted
(the cart's `total` already equals its post-promotion `subtotal`). -/
theorem C5_amended {c : Cart} (hr : Reachable c) (s : Store) (now : Nat) (u : String)
    (body : Body) :
    (getOrCreateOrderFromCart s now u c body).2.order.total
      = (getOrCreateOrderFromCart s now u c body).2.order.subtotal
        + (getOrCreateOrderFromCart s now u c body).2.order.shippingFee := by
  obtain ⟨h1, -, h3, h4⟩ := matResult_totals s now u c body
  rw [h1, h3, h4, (reachable_total_eq hr).1]
  rcases shipFeeOf_int body with ⟨k, hk⟩
  rw [hk]
  exact round2_cents_add_int (toCents c.subtotal) k

/-- C5 (counterexample).  The claim says `total = subtotal - discount +
shippingFee`.  On the reachable cart `demoCart` (one promo line: subtotal 15,
discount 5, total 15) materialization freezes subtotal 15, discount 5, fee 0
and total 15 — but the claim would require `15 - 5 + 0 = 10`. -/
theorem C5_counterexample :
    CartService.add emptyCart demoProduct 2 = .ok demoCart ∧
    (getOrCreateOrderFromCart emptyStore 0 "u" demoCart pickupBody).2.order.total
      ≠ (getOrCreateOrderFromCart emptyStore 0 "u" demoCart pickupBody).2.order.subtotal
        - (getOrCreateOrderFromCart emptyStore 0 "u" demoCart pickupBody).2.order.discount
        + (getOrCreateOrderFromCart emptyStore 0 "u" demoCart pickupBody).2.order.shippingFee := by
  with_unfolding_all decide

/-- C5 (witness): the amended totals relation evaluated on the concrete
reachable cart `demoCart` at pickup shipping. -/
theorem C5_witness :
    (getOrCreateOrderFromCart emptyStore 0 "u" demoCart pickupBody).2.order.total
      = (getOrCreateOrderFromCart emptyStore 0 "u" demoCart pickupBody).2.order.subtotal
        + (getOrCreateOrderFromCart emptyStore 0 "u" demoCart pickupBody).2.order.shippingFee :=
  C5_amended
    (Reachable.add Reachable.init
      (show CartService.add emptyCart demoProduct 2 = .ok demoCart by
        with_unfolding_all decide))
    emptyStore 0 "u" pickupBody

/- ------------------------------------------------------------------ -/
/- Store lemmas for materialization and reconciliation                 -/
/- ------------------------------------------------------------------ -/

theorem countP_map_replace (p : Order → Bool) {l : List Order} {o : Order} (upd : Order)
    (hnd : (l.map (fun x => x.id)).Nodup) (ho : o ∈ l) :
    (l.map fun x => if x.id = o.id then upd else x).countP p + (if p o then 1 else 0)
      = l.countP p + (if p upd then 1 else 0) := by
  induction l with
  | nil => cases ho
  | cons a t ih =>
    rw [List.map_cons, List.nodup_cons] at hnd
    obtain ⟨hna, hnt⟩ := hnd
    rcases List.mem_cons.mp ho with rfl | hot
    · have ht : t.map (fun x => if x.id = o.id then upd else x) = t := by
        conv_rhs => rw [← List.map_id t]
        apply List.map_congr_left
        intro x hx
        show (if x.id = o.id then upd else x) = x
        exact if_neg (fun (he : x.id = o.id) => hna (he ▸ List.mem_map.mpr ⟨x, hx, rfl⟩))
      rw [List.map_cons, if_pos rfl, ht, List.countP_cons, List.countP_cons]
      cases hpo : p o <;> cases hpu : p upd <;> simp [hpo, hpu] <;> omega
    · have haid : a.id ≠ o.id := fun he => hna (he ▸ List.mem_map.mpr ⟨o, hot, rfl⟩)
      rw [List.map_cons, if_neg haid, List.countP_cons, List.countP_cons]
      have hrec := ih hnt hot
      cases hpa : p a <;> cases hpo : p o <;> cases hpu : p upd <;>
        simp [hpa, hpo, hpu] at hrec ⊢ <;> omega

theorem find_eq_of_unique {p : Order → Bool} {l : List Order} {o : Order}
    (ho : o ∈ l) (hp : p o = true) (hc : l.countP p ≤ 1) : l.find? p = some o := by
  induction l with
  | nil => cases ho
  | cons a t ih =>
    rcases List.mem_cons.mp ho with rfl | hot
    · exact List.find?_cons_of_pos _ hp
    · cases hpa : p a with
      | false =>
        rw [List.find?_cons_of_neg _ (by simp [hpa])]
        apply ih hot
        rw [List.countP_cons, hpa] at hc
        simpa using hc
      | true =>
        exfalso
        rw [List.countP_cons, hpa] at hc
        simp only [if_true] at hc
        have hpos : 0 < t.countP p := List.countP_pos.mpr ⟨o, hot, hp⟩
        omega

theorem map_replace_ids (l : List Order) (i : Nat) (upd : Order) (hid : upd.id = i) :
    (l.map fun x => if x.id = i then upd else x).map (fun x => x.id) = l.map (fun x => x.id) := by
  rw [List.map_map]
  apply List.map_congr_left
  intro x hx
  by_cases hxi : x.id = i
  · simp [Function.comp, hxi, hid]
  · simp [Function.comp, hxi]

theorem nodup_map_replace {l : List Order} {i : Nat} {upd : Order} (hid : upd.id = i)
    (hnd : (l.map (fun x => x.id)).Nodup) :
    ((l.map fun x => if x.id = i then upd else x).map (fun x => x.id)).Nodup := by
  rw [map_replace_ids _ i _ hid]
  exact hnd

theorem mem_map_replace {l : List Order} {o : Order} (upd : Order) (ho : o ∈ l) :
    upd ∈ l.map (fun x => if x.id = o.id then upd else x) := by
  have h := List.mem_map_of_mem (fun x => if x.id = o.id then upd else x) ho
  simpa using h

theorem map_replace_at {l : List Order} {i : Nat} {upd : Order} {x : Order}
    (hx : x ∈ l.map (fun y => if y.id = i then upd else y)) (hxi : x.id = i) :
    x = upd := by
  rcases List.mem_map.mp hx with ⟨y, hy, rfl⟩
  by_cases hyi : y.id = i
  · rw [if_pos hyi]
  · rw [if_neg hyi] at hxi ⊢
    exact absurd hxi hyi

theorem createNew_orders (s : Store) (now : Nat) (u : String) (items : List OrderItem)
    (sub dis tot : ℚ) (m : String) (fee : ℚ) (addr : Option String) (hash : HashPayload) :
    (createNew s now u items sub dis tot m fee addr hash).1.orders
      = s.orders ++ [(createNew s now u items sub dis tot m fee addr hash).2.order] := rfl

theorem createNew_nextId (s : Store) (now : Nat) (u : String) (items : List OrderItem)
    (sub dis tot : ℚ) (m : String) (fee : ℚ) (addr : Option String) (hash : HashPayload) :
    (createNew s now u items sub dis tot m fee addr hash).1.nextId = s.nextId + 1 := rfl

theorem createNew_order_id (s : Store) (now : Nat) (u : String) (items : List OrderItem)
    (sub dis tot : ℚ) (m : String) (fee : ℚ) (addr : Option String) (hash : HashPayload) :
    (createNew s now u items sub dis tot m fee addr hash).2.order.id = s.nextId := rfl

theorem createNew_order_userId (s : Store) (now : Nat) (u : String) (items : List OrderItem)
    (sub dis tot : ℚ) (m : String) (fee : ℚ) (addr : Option String) (hash : HashPayload) :
    (createNew s now u items sub dis tot m fee addr hash).2.order.userId = u := rfl

theorem createNew_order_status (s : Store) (now : Nat) (u : String) (items : List OrderItem)
    (sub dis tot : ℚ) (m : String) (fee : ℚ) (addr : Option String) (hash : HashPayload) :
    (createNew s now u items sub dis tot m fee addr hash).2.order.status = .created := rfl

theorem createNew_order_cartHash (s : Store) (now : Nat) (u : String) (items : List OrderItem)
    (sub dis tot : ℚ) (m : String) (fee : ℚ) (addr : Option String) (hash : HashPayload) :
    (createNew s now u items sub dis tot m fee addr hash).2.order.cartHash = some hash := rfl

theorem openPred_createNew (w : String) (s : Store) (now : Nat) (u : String)
    (items : List OrderItem) (sub dis tot : ℚ) (m : String) (fee : ℚ) (addr : Option String)
    (hash : HashPayload) :
    openPred w (createNew s now u items sub dis tot m fee addr hash).2.order = decide (u = w) := by
  show decide (u = w ∧ OrderStatus.created = OrderStatus.created) = decide (u = w)
  simp

/-- StoreWF is preserved by `createNew`, and the create adds exactly one
`created` order of the new owner. -/
theorem createNew_wf {s : Store} (hwf : StoreWF s) (now : Nat) (u : String)
    (items : List OrderItem) (sub dis tot : ℚ) (m : String) (fee : ℚ) (addr : Option String)
    (hash : HashPayload) :
    StoreWF (createNew s now u items sub dis tot m fee addr hash).1 := by
  obtain ⟨hnd, hbound⟩ := hwf
  constructor
  · rw [createNew_orders, List.map_append, List.nodup_append]
    refine ⟨hnd, by simp, ?_⟩
    intro i hi
    simp only [List.map_cons, List.map_nil, List.mem_singleton]
    rcases List.mem_map.mp hi with ⟨a, ha, rfl⟩
    rw [createNew_order_id]
    exact Nat.ne_of_lt (hbound a ha)
  · intro o ho
    rw [createNew_orders] at ho
    rw [createNew_nextId]
    rcases List.mem_append.mp ho with h1 | h2
    · exact Nat.lt_succ_of_lt (hbound o h1)
    · rcases List.mem_singleton.mp h2 with rfl
      rw [createNew_order_id]
      exact Nat.lt_succ_self _

theorem createNew_count (w : String) (s : Store) (now : Nat) (u : String)
    (items : List OrderItem) (sub dis tot : ℚ) (m : String) (fee : ℚ) (addr : Option String)
    (hash : HashPayload) :
    countCreated (createNew s now u items sub dis tot m fee addr hash).1 w
      = countCreated s w + (if u = w then 1 else 0) := by
  show ((createNew s now u items sub dis tot m fee addr hash).1.orders).countP _
    = s.orders.countP _ + _
  rw [createNew_orders, List.countP_append, List.countP_cons, List.countP_nil,
    openPred_createNew]
  by_cases hw : u = w <;> simp [hw]

/-- The step facts of one `getOrCreateOrderFromCart` call against a
well-formed store: well-formedness is preserved, the caller's `created` count
stays at most one while other users' counts are untouched, and the returned
order is a stored, `created`-status order of the caller carrying the computed
cart fingerprint. -/
theorem mat_step (s : Store) (now : Nat) (v : String) (c : Cart) (body : Body)
    (hwf : StoreWF s) :
    StoreWF (getOrCreateOrderFromCart s now v c body).1 ∧
    (∀ u : String, u ≠ v →
      countCreated (getOrCreateOrderFromCart s now v c body).1 u = countCreated s u) ∧
    (countCreated s v ≤ 1 → countCreated (getOrCreateOrderFromCart s now v c body).1 v ≤ 1) ∧
    (getOrCreateOrderFromCart s now v c body).2.order
      ∈ (getOrCreateOrderFromCart s now v c body).1.orders ∧
    openPred v (getOrCreateOrderFromCart s now v c body).2.order = true ∧
    (getOrCreateOrderFromCart s now v c body).2.order.cartHash
      = some (computeCartHash c (shipMethodOf body) (shipFeeOf body)) := by
  unfold getOrCreateOrderFromCart
  dsimp only
  cases hfind : s.orders.find? (openPred v) with
  | none =>
    dsimp only
    have hzero : countCreated s v = 0 := by
      show s.orders.countP _ = 0
      rw [List.countP_eq_zero]
      intro a ha
      exact List.find?_eq_none.mp hfind a ha
    refine ⟨createNew_wf hwf now v _ _ _ _ _ _ _ _, ?_, ?_, ?_, ?_, ?_⟩
    · intro u hu
      rw [createNew_count, if_neg (fun h => hu h.symm)]
      omega
    · intro h1
      rw [createNew_count, hzero]
      simp
    · rw [createNew_orders]
      simp
    · rw [openPred_createNew]
      simp
    · rw [createNew_order_cartHash]
  | some o =>
    dsimp only
    have homem : o ∈ s.orders := List.mem_of_find?_eq_some hfind
    have hop : openPred v o = true := List.find?_some hfind
    have houser : o.userId = v ∧ o.status = .created := by
      simpa [openPred] using hop
    obtain ⟨hnd, hbound⟩ := hwf
    by_cases hcnd : isExpiredAt o now = false ∧
        o.cartHash = some (computeCartHash c (shipMethodOf body) (shipFeeOf body))
    · rw [if_pos hcnd]
      dsimp only
      refine ⟨⟨?_, ?_⟩, ?_, ?_, ?_, ?_, ?_⟩
      · exact nodup_map_replace rfl hnd
      · intro x hx
        rcases List.mem_map.mp hx with ⟨y, hy, rfl⟩
        by_cases hyi : y.id = o.id
        · rw [if_pos hyi]
          exact hbound o homem
        · rw [if_neg hyi]
          exact hbound y hy
      · intro u hu
        show (s.orders.map _).countP _ = s.orders.countP _
        have hpo : openPred u o = false := by
          simp only [openPred, decide_eq_false_iff_not]
          rintro ⟨h1, -⟩
          exact hu (houser.1 ▸ h1.symm)
        have hpu : openPred u { o with
            attemptCount := o.attemptCount + 1
            lastAttemptAt := some now
            subtotal := round2 c.subtotal
            discount := round2 c.discount
            shippingFee := shipFeeOf body
            shippingMethod := shipMethodOf body
            shippingAddressId := addrOf body
            total := round2 (round2 c.total + shipFeeOf body)
            items := orderItemsOf c } = false := by
          simp only [openPred, decide_eq_false_iff_not]
          rintro ⟨h1, -⟩
          exact hu (houser.1 ▸ h1.symm)
        have heq := countP_map_replace (openPred u)
          ({ o with
            attemptCount := o.attemptCount + 1
            lastAttemptAt := some now
            subtotal := round2 c.subtotal
            discount := round2 c.discount
            shippingFee := shipFeeOf body
            shippingMethod := shipMethodOf body
            shippingAddressId := addrOf body
            total := round2 (round2 c.total + shipFeeOf body)
            items := orderItemsOf c }) hnd homem
        rw [hpo, hpu] at heq
        simpa using heq
      · intro h1
        show (s.orders.map _).countP _ ≤ 1
        have hpu : openPred v { o with
            attemptCount := o.attemptCount + 1
            lastAttemptAt := some now
            subtotal := round2 c.subtotal
            discount := round2 c.discount
            shippingFee := shipFeeOf body
            shippingMethod := shipMethodOf body
            shippingAddressId := addrOf body
            total := round2 (round2 c.total + shipFeeOf body)
            items := orderItemsOf c } = true := by
          simp only [openPred, decide_eq_true_eq]
          exact ⟨houser.1, houser.2⟩
        have heq := countP_map_replace (openPred v)
          ({ o with
            attemptCount := o.attemptCount + 1
            lastAttemptAt := some now
            subtotal := round2 c.subtotal
            discount := round2 c.discount
            shippingFee := shipFeeOf body
            shippingMethod := shipMethodOf body
            shippingAddressId := addrOf body
            total := round2 (round2 c.total + shipFeeOf body)
            items := orderItemsOf c }) hnd homem
        rw [hop, hpu] at heq
        have h4 : s.orders.countP (openPred v) ≤ 1 := h1
        simp only [if_true] at heq
        omega
      · exact mem_map_replace _ homem
      · simp only [openPred, decide_eq_true_eq]
        exact ⟨houser.1, houser.2⟩
      · exact hcnd.2
    · rw [if_neg hcnd]
      have hretf : ∀ u, openPred u { o with
          status := if isExpiredAt o now then OrderStatus.expired else OrderStatus.abandoned }
            = false := by
        intro u
        simp only [openPred, decide_eq_false_iff_not]
        rintro ⟨-, h2⟩
        revert h2
        split <;> simp
      have hwf1 : StoreWF { s with orders := s.orders.map fun x =>
          if x.id = o.id then { o with
            status := if isExpiredAt o now then OrderStatus.expired else OrderStatus.abandoned }
          else x } := by
        constructor
        · exact nodup_map_replace rfl hnd
        · intro x hx
          rcases List.mem_map.mp hx with ⟨y, hy, rfl⟩
          by_cases hyi : y.id = o.id
          · rw [if_pos hyi]
            exact hbound o homem
          · rw [if_neg hyi]
            exact hbound y hy
      have hcount1 : ∀ u, countCreated ({ s with orders := s.orders.map fun x =>
          if x.id = o.id then { o with
            status := if isExpiredAt o now then OrderStatus.expired else OrderStatus.abandoned }
          else x } : Store) u
            + (if openPred u o then 1 else 0) = countCreated s u := by
        intro u
        have heq := countP_map_replace (openPred u)
          ({ o with
            status := if isExpiredAt o now then OrderStatus.expired else OrderStatus.abandoned })
          hnd homem
        rw [hretf u] at heq
        have hz : (if (false = true) then (1:Nat) else 0) = 0 := rfl
        rw [hz, Nat.add_zero] at heq
        exact heq
      refine ⟨createNew_wf hwf1 now v _ _ _ _ _ _ _ _, ?_, ?_, ?_, ?_, ?_⟩
      · intro u hu
        rw [createNew_count, if_neg (show ¬ v = u from fun h => hu h.symm)]
        have hpo : openPred u o = false := by
          simp only [openPred, decide_eq_false_iff_not]
          rintro ⟨h1, -⟩
          exact hu (houser.1 ▸ h1.symm)
        have h3 := hcount1 u
        rw [hpo] at h3
        have hz : (if (false = true) then (1:Nat) else 0) = 0 := rfl
        rw [hz, Nat.add_zero] at h3
        omega
      · intro h1
        rw [createNew_count, if_pos (show v = v from rfl)]
        have h3 := hcount1 v
        rw [hop] at h3
        have hz : (if (true = true) then (1:Nat) else 0) = 1 := rfl
        rw [hz] at h3
        have h4 : countCreated s v ≤ 1 := h1
        omega
      · rw [createNew_orders]
        simp
      · rw [openPred_createNew]
        simp
      · rw [createNew_order_cartHash]

/- ------------------------------------------------------------------ -/
/- C2: idempotent checkout                                             -/
/- ------------------------------------------------------------------ -/

/-- The reuse branch of `getOrCreateOrderFromCart`: when the user's unique
`created` order is unexpired and carries the same fingerprint, the call
returns that very order with `attemptCount` incremented by one. -/
theorem mat_reuse {s : Store} {now : Nat} {u : String} {c : Cart} {body : Body} {o : Order}
    (hfind : s.orders.find? (openPred u) = some o)
    (hexp : isExpiredAt o now = false)
    (hhash : o.cartHash = some (computeCartHash c (shipMethodOf body) (shipFeeOf body))) :
    (getOrCreateOrderFromCart s now u c body).2.order.id = o.id ∧
    (getOrCreateOrderFromCart s now u c body).2.order.attemptCount = o.attemptCount + 1 := by
  unfold getOrCreateOrderFromCart
  dsimp only
  rw [hfind]
  dsimp only
  rw [if_pos ⟨hexp, hhash⟩]
  exact ⟨rfl, rfl⟩

/-- C2: for every user and non-empty cart, calling `getOrCreateOrderFromCart`
twice in a row with the cart, shipping method and fee (the request body)
unchanged — the first returned order being unexpired at the second call —
returns an order with the same id both times, and the second call returns
`attemptCount` exactly one greater than the first call did.  The store
hypotheses are the invariants Mongo guarantees: unique ids below the counter,
and (by the partial unique index) at most one `created` order for the user. -/
theorem C2_idempotent_checkout (s : Store) (u : String) (c : Cart) (body : Body)
    (now1 now2 : Nat) (hwf : StoreWF s) (hone : countCreated s u ≤ 1)
    (hne : c.items ≠ [])
    (hunexp : isExpiredAt (getOrCreateOrderFromCart s now1 u c body).2.order now2 = false) :
    (getOrCreateOrderFromCart (getOrCreateOrderFromCart s now1 u c body).1 now2 u c body).2.order.id
      = (getOrCreateOrderFromCart s now1 u c body).2.order.id ∧
    (getOrCreateOrderFromCart (getOrCreateOrderFromCart s now1 u c body).1
        now2 u c body).2.order.attemptCount
      = (getOrCreateOrderFromCart s now1 u c body).2.order.attemptCount + 1 := by
  obtain ⟨hwf1, -, hself, hmem, hpred, hhash⟩ := mat_step s now1 u c body hwf
  have hcount : countCreated (getOrCreateOrderFromCart s now1 u c body).1 u ≤ 1 := hself hone
  have hfind : (getOrCreateOrderFromCart s now1 u c body).1.orders.find? (openPred u)
      = some (getOrCreateOrderFromCart s now1 u c body).2.order :=
    find_eq_of_unique hmem hpred hcount
  exact mat_reuse hfind hunexp hhash

/-- C2 (witness): two consecutive checkouts of `demoCart` by user "u" against
the empty store, at times 0 and 1000, reuse order id 0 and raise
`attemptCount` from 0 to 1. -/
theorem C2_witness :
    (getOrCreateOrderFromCart (getOrCreateOrderFromCart emptyStore 0 "u" demoCart pickupBody).1
        1000 "u" demoCart pickupBody).2.order.id
      = (getOrCreateOrderFromCart emptyStore 0 "u" demoCart pickupBody).2.order.id ∧
    (getOrCreateOrderFromCart (getOrCreateOrderFromCart emptyStore 0 "u" demoCart pickupBody).1
        1000 "u" demoCart pickupBody).2.order.attemptCount
      = (getOrCreateOrderFromCart emptyStore 0 "u" demoCart pickupBody).2.order.attemptCount + 1 :=
  C2_idempotent_checkout emptyStore "u" demoCart pickupBody 0 1000
    (by constructor
        · simp [emptyStore]
        · intro o ho
          simp [emptyStore] at ho)
    (by with_unfolding_all decide)
    (by with_unfolding_all decide)
    (by with_unfolding_all decide)

/- ------------------------------------------------------------------ -/
/- C3: at most one created order per user                              -/
/- ------------------------------------------------------------------ -/

/-- C3: for every user, after any finite sequence of
`getOrCreateOrderFromCart` calls executed one at a time starting from a
well-formed store holding no `created`-status order for that user, at most one
order with `status = created` exists for that user in the store.  The calls
may belong to arbitrary users, carts and request bodies. -/
theorem C3_at_most_one_created (s : Store) (u : String) (calls : List MatCall)
    (hwf : StoreWF s) (h0 : countCreated s u = 0) :
    countCreated (runCalls s calls) u ≤ 1 := by
  have haux : ∀ (calls : List MatCall) (s : Store), StoreWF s → countCreated s u ≤ 1 →
      StoreWF (runCalls s calls) ∧ countCreated (runCalls s calls) u ≤ 1 := by
    intro calls
    induction calls with
    | nil => exact fun s hw h1 => ⟨hw, h1⟩
    | cons cl t ih =>
      intro s hw h1
      obtain ⟨hwf1, hothers, hself, -, -, -⟩ := mat_step s cl.now cl.userId cl.cart cl.body hw
      refine ih _ hwf1 ?_
      by_cases hu : u = cl.userId
      · subst hu
        exact hself h1
      · rw [hothers u hu]
        exact h1
  exact (haux calls s hwf (by omega)).2

/-- C3 (witness): one checkout call by "u" against the empty store leaves at
most one `created` order for "u". -/
theorem C3_witness :
    countCreated (runCalls emptyStore [⟨0, "u", demoCart, pickupBody⟩]) "u" ≤ 1 :=
  C3_at_most_one_created emptyStore "u" [⟨0, "u", demoCart, pickupBody⟩]
    (by constructor
        · simp [emptyStore]
        · intro o ho
          simp [emptyStore] at ho)
    rfl

/- ------------------------------------------------------------------ -/
/- C6: changed fingerprint abandons and recreates                      -/
/- ------------------------------------------------------------------ -/

/-- C6: for a user holding an unexpired `created` order whose stored
fingerprint differs from the current cart's, `getOrCreateOrderFromCart`
transitions the stored order to `abandoned` and creates and returns a new
order, distinct in id, in status `created`. -/
theorem C6_abandon_and_recreate (s : Store) (u : String) (c : Cart) (body : Body) (now : Nat)
    (o : Order) (hwf : StoreWF s) (hone : countCreated s u ≤ 1)
    (ho : o ∈ s.orders) (hou : o.userId = u) (host : o.status = .created)
    (hexp : isExpiredAt o now = false)
    (hhash : o.cartHash ≠ some (computeCartHash c (shipMethodOf body) (shipFeeOf body))) :
    (getOrCreateOrderFromCart s now u c body).2.order.status = .created ∧
    (getOrCreateOrderFromCart s now u c body).2.order.id ≠ o.id ∧
    (getOrCreateOrderFromCart s now u c body).2.order
      ∈ (getOrCreateOrderFromCart s now u c body).1.orders ∧
    (∀ x ∈ (getOrCreateOrderFromCart s now u c body).1.orders,
      x.id = o.id → x.status = .abandoned) := by
  have hpred : openPred u o = true := by
    simp [openPred, hou, host]
  have hfind := find_eq_of_unique ho hpred hone
  have hbound := hwf.2 o ho
  unfold getOrCreateOrderFromCart
  dsimp only
  rw [hfind]
  dsimp only
  rw [if_neg (fun hcc => hhash hcc.2)]
  refine ⟨createNew_order_status _ _ _ _ _ _ _ _ _ _ _, ?_, ?_, ?_⟩
  · rw [createNew_order_id]
    show s.nextId ≠ o.id
    omega
  · rw [createNew_orders]
    simp
  · intro x hx hxid
    rw [createNew_orders] at hx
    rcases List.mem_append.mp hx with hx1 | hx2
    · have hxr := map_replace_at hx1 hxid
      rw [hxr]
      show (if isExpiredAt o now then OrderStatus.expired else OrderStatus.abandoned) = _
      rw [hexp]
      rfl
    · exfalso
      rcases List.mem_singleton.mp hx2 with rfl
      rw [createNew_order_id] at hxid
      have hxid2 : s.nextId = o.id := hxid
      omega

/-- C6 (witness): user "u" holds an unexpired open order fingerprinted for a
different cart; checking out `demoCart` abandons it and creates order 1. -/
theorem C6_witness :
    (getOrCreateOrderFromCart openStoreU 5 "u" demoCart pickupBody).2.order.status = .created ∧
    (getOrCreateOrderFromCart openStoreU 5 "u" demoCart pickupBody).2.order.id ≠ openOrderU.id ∧
    (getOrCreateOrderFromCart openStoreU 5 "u" demoCart pickupBody).2.order
      ∈ (getOrCreateOrderFromCart openStoreU 5 "u" demoCart pickupBody).1.orders ∧
    (∀ x ∈ (getOrCreateOrderFromCart openStoreU 5 "u" demoCart pickupBody).1.orders,
      x.id = openOrderU.id → x.status = .abandoned) :=
  C6_abandon_and_recreate openStoreU "u" demoCart pickupBody 5 openOrderU
    (by constructor
        · simp [openStoreU]
        · intro o ho
          simp only [openStoreU, List.mem_singleton] at ho
          rw [ho]
          decide)
    (by with_unfolding_all decide)
    (List.mem_singleton.mpr rfl)
    rfl
    rfl
    rfl
    (by with_unfolding_all decide)

/- ------------------------------------------------------------------ -/
/- C1: reconciliation and the approved status                          -/
/- ------------------------------------------------------------------ -/

theorem updateOrderMpFields_status {s : Store} {i : Nat} {payment pref : Option String}
    {st : OrderStatus} :
    ∀ x ∈ (updateOrderMpFields s i payment pref st).orders, x.id = i → x.status = st := by
  intro x hx hxi
  rcases List.mem_map.mp hx with ⟨y, hy, rfl⟩
  by_cases hyi : y.id = i
  · rw [if_pos hyi]
  · rw [if_neg hyi] at hxi ⊢
    exact absurd hxi hyi

/-- C1 (counterexample).  The claim says a reconciliation callback reporting
`pending` for an already-`approved` order leaves the status `approved` for all
three handlers.  But `getCheckoutPending` writes `status: 'pending'`
unconditionally: on a store holding only an approved order 0, a pending
callback resolving that order downgrades it to `pending`. -/
theorem C1_counterexample :
    approvedOrder.status = .approved ∧
    pmPendingParams.status = some "pending" ∧
    resolveOrder approvedStore pmPendingParams = some approvedOrder ∧
    (getCheckoutPending approvedStore pmPendingParams).1.orders.map (fun o => o.status)
      = [OrderStatus.pending] := by
  with_unfolding_all decide

/-- C1 (amended).  Once an order is `approved`, a callback handled by
`getCheckoutSuccess` reporting `pending` or `rejected` leaves its status
`approved`; but `getCheckoutPending` unconditionally sets the resolved order's
status to `pending` and `getCheckoutFailure` unconditionally sets it to
`rejected`, regardless of the current status — the non-downgrade guarantee
holds only for the success handler. -/
theorem C1_amended (s : Store) (pm : MpParams) (o : Order)
    (hres : resolveOrder s pm = some o) (happ : o.status = .approved)
    (hout : pm.status = some "pending" ∨ pm.status = some "rejected") :
    (∀ x ∈ (getCheckoutSuccess s pm).1.orders, x.id = o.id → x.status = .approved) ∧
    (∀ x ∈ (getCheckoutPending s pm).1.orders, x.id = o.id → x.status = .pending) ∧
    (∀ x ∈ (getCheckoutFailure s pm).1.orders, x.id = o.id → x.status = .rejected) := by
  have hns : (if pm.status = some "approved" then OrderStatus.approved else o.status)
      = OrderStatus.approved := by
    rcases hout with h | h <;>
      · rw [h, if_neg (by decide), happ]
  refine ⟨?_, ?_, ?_⟩
  · unfold getCheckoutSuccess
    rw [hres]
    dsimp only
    rw [hns]
    exact updateOrderMpFields_status
  · unfold getCheckoutPending
    rw [hres]
    dsimp only
    exact updateOrderMpFields_status
  · unfold getCheckoutFailure
    rw [hres]
    dsimp only
    exact updateOrderMpFields_status

/-- C1 (witness): the amended statement evaluated on the concrete store
holding approved order 0 and a callback reporting `pending` for it. -/
theorem C1_witness :
    (∀ x ∈ (getCheckoutSuccess approvedStore pmPendingParams).1.orders,
      x.id = approvedOrder.id → x.status = .approved) ∧
    (∀ x ∈ (getCheckoutPending approvedStore pmPendingParams).1.orders,
      x.id = approvedOrder.id → x.status = .pending) ∧
    (∀ x ∈ (getCheckoutFailure approvedStore pmPendingParams).1.orders,
      x.id = approvedOrder.id → x.status = .rejected) :=
  C1_amended approvedStore pmPendingParams approvedOrder
    (by with_unfolding_all decide)
    rfl
    (Or.inl rfl)

end Shop